import Mathlib

/-!
Verification of `taws` collaborator modules against their specification.

Shallow embedding of the Rust modules `src/aws/tls.rs`, `src/config.rs` and
`src/aws/profiles.rs` of the `taws` repository, together with theorems settling
the specification claims about them.

Conventions:
* Rust `Vec<T>`/slices become `List`; `Option<T>` becomes `Option`.
* External library behaviour (rustls certificate parsing and validation,
  serde-yaml parsing, the `aws` CLI) is threaded in as explicit function
  parameters, since it is not code of this repository.
* Process-global mutable state (the `OnceLock` CA-bundle cache) becomes
  explicit state passing over a `TlsState` value.
* The environment and the file system are read-only inputs modelled as
  `String → Option String` maps.
-/

namespace Taws

/-! Section: `src/aws/tls.rs` — certificate filtering (`filter_valid_certificates`).

```rust
fn filter_valid_certificates(certs: Vec<Certificate>) -> Vec<Certificate> {
    if certs.is_empty() { return vec![]; }
    if certs.len() == 1 {
        if validate_certificates(&certs) { return certs; } else { return vec![]; }
    }
    if validate_certificates(&certs) { return certs; }
    let mid = certs.len() / 2;
    let (left, right) = certs.split_at(mid);
    let mut valid = filter_valid_certificates(left.to_vec());
    valid.extend(filter_valid_certificates(right.to_vec()));
    valid
}
```

`validate_certificates` builds a rustls client from the whole batch; it is an
external group-validity predicate and is passed in as `validate`.
-/

/-- Embedding of `filter_valid_certificates` (src/aws/tls.rs, lines 184–210),
parametrized by the group-validity predicate `validate`
(`validate_certificates` in the source). -/
def filter_valid_certificates {α : Type} (validate : List α → Bool)
    (certs : List α) : List α :=
  if h1 : certs.isEmpty then []
  else if h2 : certs.length = 1 then
    if validate certs then certs else []
  else if validate certs then certs
  else
    let mid := certs.length / 2
    filter_valid_certificates validate (certs.take mid) ++
      filter_valid_certificates validate (certs.drop mid)
termination_by certs.length
decreasing_by
  all_goals
    simp only [List.isEmpty_iff, ← List.length_eq_zero] at h1
    simp only [List.length_take, List.length_drop]
    omega

/-- The same recursion instrumented with a count of how many times the
group-validity predicate is consulted (one count per `validate_certificates`
call performed by the Rust function). -/
def fvcCount {α : Type} (validate : List α → Bool)
    (certs : List α) : List α × Nat :=
  if h1 : certs.isEmpty then ([], 0)
  else if h2 : certs.length = 1 then
    if validate certs then (certs, 1) else ([], 1)
  else if validate certs then (certs, 1)
  else
    let mid := certs.length / 2
    let l := fvcCount validate (certs.take mid)
    let r := fvcCount validate (certs.drop mid)
    (l.1 ++ r.1, 1 + l.2 + r.2)
termination_by certs.length
decreasing_by
  all_goals
    simp only [List.isEmpty_iff, ← List.length_eq_zero] at h1
    simp only [List.length_take, List.length_drop]
    omega

/-- Under a pointwise group-validity predicate, the bisection filter computes
exactly the individually-valid elements.  Auxiliary lemma, by strong induction
on the length bound `n`. -/
theorem fvc_eq_filter_aux {α : Type} (validate : List α → Bool)
    (hP : ∀ l, validate l = true ↔ ∀ x ∈ l, validate [x] = true) :
    ∀ (n : Nat) (certs : List α), certs.length ≤ n →
      filter_valid_certificates validate certs =
        certs.filter (fun x => validate [x]) := by
  intro n
  induction n with
  | zero =>
    intro certs hlen
    have hc : certs = [] := List.length_eq_zero.mp (Nat.le_zero.mp hlen)
    subst hc
    simp [filter_valid_certificates]
  | succ n ih =>
    intro certs hlen
    rw [filter_valid_certificates]
    split_ifs with h1 h2 h3 h4
    · have hc : certs = [] := List.isEmpty_iff.mp h1
      simp [hc]
    · obtain ⟨x, hx⟩ := List.length_eq_one.mp h2
      subst hx
      simp [h3]
    · obtain ⟨x, hx⟩ := List.length_eq_one.mp h2
      subst hx
      simp [h3]
    · symm
      rw [List.filter_eq_self]
      intro a ha
      exact (hP certs).mp h4 a ha
    · have hne : certs ≠ [] := fun h => h1 (by simp [h])
      have hpos : 0 < certs.length := List.length_pos.mpr hne
      have hl1 : (certs.take (certs.length / 2)).length ≤ n := by
        simp only [List.length_take]
        omega
      have hl2 : (certs.drop (certs.length / 2)).length ≤ n := by
        simp only [List.length_drop]
        omega
      show filter_valid_certificates validate (certs.take (certs.length / 2)) ++
          filter_valid_certificates validate (certs.drop (certs.length / 2)) =
          certs.filter (fun x => validate [x])
      rw [ih _ hl1, ih _ hl2, ← List.filter_append, List.take_append_drop]

/-- C1: for a pointwise group-validity predicate (one that accepts a batch
exactly when it accepts each element on its own — the monotone situation the
bisection technique is designed for), `filter_valid_certificates` returns the
maximal valid subsequence of its input: the result is a subsequence of the
input, it is accepted by the predicate, and every accepted subsequence of the
input is at most as long.  (The original unrestricted claim — over *every*
group-validity predicate — is refuted by `claim_C1_counterexample`.) -/
theorem claim_C1 {α : Type} (validate : List α → Bool)
    (hP : ∀ l, validate l = true ↔ ∀ x ∈ l, validate [x] = true)
    (certs : List α) :
    (filter_valid_certificates validate certs).Sublist certs ∧
    validate (filter_valid_certificates validate certs) = true ∧
    ∀ l' : List α, l'.Sublist certs → validate l' = true →
      l'.length ≤ (filter_valid_certificates validate certs).length := by
  have heq := fvc_eq_filter_aux validate hP certs.length certs le_rfl
  refine ⟨?_, ?_, ?_⟩
  · rw [heq]
    exact List.filter_sublist certs
  · rw [heq]
    refine (hP _).mpr ?_
    intro x hx
    exact (List.mem_filter.mp hx).2
  · intro l' hsub hval
    have hself : l'.filter (fun x => validate [x]) = l' :=
      List.filter_eq_self.mpr (fun a ha => (hP l').mp hval a ha)
    have hfs : (l'.filter (fun x => validate [x])).Sublist
        (certs.filter (fun x => validate [x])) := hsub.filter _
    rw [heq]
    calc l'.length = (l'.filter (fun x => validate [x])).length := by rw [hself]
      _ ≤ (certs.filter (fun x => validate [x])).length := hfs.length_le

/-- C1 witness: concrete instance of `claim_C1` with the pointwise predicate
"no element equals 1" on the input `[0, 1, 2]`. -/
theorem claim_C1_witness :
    (fun l : List Nat => l.all (fun x => decide (x ≠ 1)))
      (filter_valid_certificates
        (fun l : List Nat => l.all (fun x => decide (x ≠ 1))) [0, 1, 2]) = true :=
  (claim_C1 (fun l : List Nat => l.all (fun x => decide (x ≠ 1)))
    (by
      intro l
      simp [List.all_eq_true])
    [0, 1, 2]).2.1

/-- C1 counterexample to the unrestricted claim: with the (non-pointwise)
group-validity predicate "at most one certificate", the routine returns the
whole input `[0, 1]`, which the predicate rejects, even though the accepted
subsequence `[0]` exists — so the result is not the largest accepted
subsequence (it is not accepted at all). -/
theorem claim_C1_counterexample :
    filter_valid_certificates (fun l : List Nat => decide (l.length ≤ 1)) [0, 1]
        = [0, 1] ∧
    (fun l : List Nat => decide (l.length ≤ 1)) [0, 1] = false ∧
    (fun l : List Nat => decide (l.length ≤ 1)) [0] = true ∧
    List.Sublist [0] [0, 1] := by
  refine ⟨?_, by simp, by simp, by simp⟩
  simp [filter_valid_certificates]

/-- C6 (amended): if the group-validity predicate accepts the whole input,
`filter_valid_certificates` returns the input unchanged, and the number of
validations performed is exactly one when the input is nonempty — and zero for
the empty input (the original claim's "a single validation" fails only there,
see `claim_C6_counterexample`). -/
theorem claim_C6 {α : Type} (validate : List α → Bool) (certs : List α)
    (hval : validate certs = true) :
    filter_valid_certificates validate certs = certs ∧
    (fvcCount validate certs).2 = if certs.isEmpty then 0 else 1 := by
  constructor
  · rw [filter_valid_certificates]
    by_cases h1 : certs.isEmpty
    · simp [h1, List.isEmpty_iff.mp h1]
    · simp [h1, hval]
  · rw [fvcCount]
    by_cases h1 : certs.isEmpty
    · simp [h1]
    · simp [h1, hval]

/-- C6 witness: on the all-valid input `[5, 7]`, the routine returns the input
unchanged and performs exactly one validation. -/
theorem claim_C6_witness :
    filter_valid_certificates (fun _ : List Nat => true) [5, 7] = [5, 7] ∧
    (fvcCount (fun _ : List Nat => true) [5, 7]).2 = 1 := by
  simpa using claim_C6 (fun _ : List Nat => true) [5, 7] rfl

/-- C6 counterexample to the exact claim: the empty input is accepted by the
predicate as a whole, yet the routine performs zero validations rather than a
single one (it returns before consulting the predicate). -/
theorem claim_C6_counterexample :
    (fun _ : List Nat => true) [] = true ∧
    fvcCount (fun _ : List Nat => true) ([] : List Nat) ≠ ([], 1) := by
  constructor
  · rfl
  · simp [fvcCount]

/-! Section: `src/aws/tls.rs` — CA-bundle loading and client configuration.

The `OnceLock` global `CA_BUNDLE_CACHE` becomes an explicit `TlsState` value
threaded through `load_ca_certificates`.  The environment (`std::env::var`) and
the file system (`fs::read` together with `Path::exists`) are read-only maps
`String → Option String`.  rustls certificate parsing
(`reqwest::Certificate::from_pem`) and group validation
(`validate_certificates`, which builds a client) are external and passed in as
`fromPem` and `validate`.  `Duration` values are modelled in seconds. -/

/-- Default connect timeout, `Duration::from_secs(10)` (src/aws/tls.rs line 15). -/
def DEFAULT_CONNECT_TIMEOUT : Nat := 10

/-- Default request timeout, `Duration::from_secs(30)` (src/aws/tls.rs line 18). -/
def DEFAULT_REQUEST_TIMEOUT : Nat := 30

/-- First index at which `pat` occurs as a contiguous run inside `s`
(Rust `str::find` with a string pattern, modelled on character lists). -/
def strFind {α : Type} [DecidableEq α] (pat : List α) (s : List α) : Option Nat :=
  if pat.isPrefixOf s then some 0
  else
    match s with
    | [] => none
    | _ :: t => (strFind pat t).map (· + 1)

/-- A successful `strFind` for a nonempty pattern implies the text is nonempty. -/
theorem strFind_pos {α : Type} [DecidableEq α] (pat : List α) (s : List α)
    (i : Nat) (hpat : pat ≠ []) (hfind : strFind pat s = some i) :
    0 < s.length := by
  cases s with
  | nil =>
    rw [strFind] at hfind
    have hpre : pat.isPrefixOf ([] : List α) = false := by
      cases pat with
      | nil => exact absurd rfl hpat
      | cons a t => rfl
    simp [hpre] at hfind
  | cons a t => simp

/-- The marker `"-----BEGIN CERTIFICATE-----"` (src/aws/tls.rs line 118). -/
def certBeginMarker : List Char := "-----BEGIN CERTIFICATE-----".toList

/-- The marker `"-----END CERTIFICATE-----"` (src/aws/tls.rs line 119). -/
def certEndMarker : List Char := "-----END CERTIFICATE-----".toList

/-- The `while let Some(start) = pem_str[pos..].find(...)` scanning loop of
`parse_pem_certificates` (src/aws/tls.rs lines 121–139): repeatedly locate a
BEGIN marker, then the first END marker after it, hand the enclosed block to
`Certificate::from_pem` (`fromPem`), and continue after the block; a BEGIN
without a following END aborts the scan. -/
def scanCertBlocks {Cert : Type} (fromPem : List Char → Option Cert)
    (s : List Char) : List Cert :=
  match hb : strFind certBeginMarker s with
  | none => []
  | some start =>
    let s1 := s.drop start
    match strFind certEndMarker s1 with
    | none => []
    | some e =>
      let blockLen := e + certEndMarker.length
      let block := s1.take blockLen
      let rest := s1.drop blockLen
      (match fromPem block with
       | some c => [c]
       | none => []) ++ scanCertBlocks fromPem rest
termination_by s.length
decreasing_by
  simp only [List.length_drop]
  have h0 : 0 < s.length :=
    strFind_pos certBeginMarker s start (by decide) hb
  have h25 : 0 < certEndMarker.length := by decide
  omega

/-- Embedding of `parse_pem_certificates` (src/aws/tls.rs lines 107–171): scan
the PEM text into individually parsed certificates; if none parse, return the
empty list; if the whole batch validates, return it (single validation fast
path); otherwise bisect with `filter_valid_certificates`.  The source's
UTF-8-decoding failure branch is unrepresentable here because the model reads
text directly. -/
def parse_pem_certificates {Cert : Type} (fromPem : List Char → Option Cert)
    (validate : List Cert → Bool) (pem : String) : List Cert :=
  let all_certs := scanCertBlocks fromPem pem.toList
  if all_certs.isEmpty then []
  else if validate all_certs then all_certs
  else filter_valid_certificates validate all_certs

/-- Embedding of `load_certificates_from_file` (src/aws/tls.rs lines 59–100):
`fs` returns `none` when the file is absent or unreadable (the source's
`!path.exists()` and `fs::read` error branches); an empty parse result also
falls back to `none`. -/
def load_certificates_from_file {Cert : Type} (fromPem : List Char → Option Cert)
    (validate : List Cert → Bool) (fs : String → Option String)
    (path : String) : Option (List Cert) :=
  match fs path with
  | none => none
  | some pem =>
    let certs := parse_pem_certificates fromPem validate pem
    if certs.isEmpty then none else some certs

/-- The process-wide `CA_BUNDLE_CACHE : OnceLock<Option<Vec<Certificate>>>`
(src/aws/tls.rs line 21), made explicit: `cache = none` means the `OnceLock`
is still unset. -/
structure TlsState (Cert : Type) where
  cache : Option (Option (List Cert))

/-- The cache state at process startup: the `OnceLock` is unset. -/
def initialTlsState {Cert : Type} : TlsState Cert := ⟨none⟩

/-- Embedding of `load_ca_certificates` (src/aws/tls.rs lines 36–56):
`CA_BUNDLE_CACHE.get_or_init(...)` — on a hit return the cached value and
leave the state alone; on a miss resolve `AWS_CA_BUNDLE` then `SSL_CERT_FILE`,
load the file, and store the result. -/
def load_ca_certificates {Cert : Type} (fromPem : List Char → Option Cert)
    (validate : List Cert → Bool) (env fs : String → Option String)
    (s : TlsState Cert) : Option (List Cert) × TlsState Cert :=
  match s.cache with
  | some v => (v, s)
  | none =>
    let ca_path := (env "AWS_CA_BUNDLE").or (env "SSL_CERT_FILE")
    let v :=
      match ca_path with
      | none => none
      | some p => load_certificates_from_file fromPem validate fs p
    (v, ⟨some v⟩)

/-- A populated cache is returned as-is and never recomputed or mutated. -/
theorem load_ca_certificates_cached {Cert : Type}
    (fromPem : List Char → Option Cert) (validate : List Cert → Bool)
    (env fs : String → Option String) (s : TlsState Cert)
    (w : Option (List Cert)) (h : s.cache = some w) :
    load_ca_certificates fromPem validate env fs s = (w, s) := by
  rw [load_ca_certificates, h]

/-- The relevant fields of `reqwest::ClientBuilder` (blocking and async alike):
 timeouts in seconds, the built-in-roots flag, and the added root certificates. -/
structure ClientBuilder (Cert : Type) where
  connectTimeout : Option Nat
  requestTimeout : Option Nat
  tlsBuiltInRootCerts : Bool
  rootCertificates : List Cert

/-- Embedding of `configure_tls_blocking` (src/aws/tls.rs lines 227–246): set
both timeouts, then add the cached CA bundle (keeping built-in roots) when one
is configured. -/
def configure_tls_blocking {Cert : Type} (fromPem : List Char → Option Cert)
    (validate : List Cert → Bool) (env fs : String → Option String)
    (s : TlsState Cert) (b : ClientBuilder Cert) :
    ClientBuilder Cert × TlsState Cert :=
  let b := { b with connectTimeout := some DEFAULT_CONNECT_TIMEOUT,
                    requestTimeout := some DEFAULT_REQUEST_TIMEOUT }
  match load_ca_certificates fromPem validate env fs s with
  | (some certs, s1) =>
    ({ b with tlsBuiltInRootCerts := true,
              rootCertificates := b.rootCertificates ++ certs }, s1)
  | (none, s1) => (b, s1)

/-- Embedding of `configure_tls_async` (src/aws/tls.rs lines 273–290);
identical to the blocking variant. -/
def configure_tls_async {Cert : Type} (fromPem : List Char → Option Cert)
    (validate : List Cert → Bool) (env fs : String → Option String)
    (s : TlsState Cert) (b : ClientBuilder Cert) :
    ClientBuilder Cert × TlsState Cert :=
  let b := { b with connectTimeout := some DEFAULT_CONNECT_TIMEOUT,
                    requestTimeout := some DEFAULT_REQUEST_TIMEOUT }
  match load_ca_certificates fromPem validate env fs s with
  | (some certs, s1) =>
    ({ b with tlsBuiltInRootCerts := true,
              rootCertificates := b.rootCertificates ++ certs }, s1)
  | (none, s1) => (b, s1)

/-- C4: the trust bundle is resolved exactly once.  Starting from the unset
cache, a second `load_ca_certificates` call — under arbitrarily changed
environment variables `env2` and file system `fs2` — returns exactly the first
call's result and leaves the cache state unchanged (so, inductively, every
later call does too). -/
theorem claim_C4 {Cert : Type} (fromPem : List Char → Option Cert)
    (validate : List Cert → Bool) (env1 fs1 env2 fs2 : String → Option String) :
    load_ca_certificates fromPem validate env2 fs2
        (load_ca_certificates fromPem validate env1 fs1 initialTlsState).2 =
      ((load_ca_certificates fromPem validate env1 fs1 initialTlsState).1,
       (load_ca_certificates fromPem validate env1 fs1 initialTlsState).2) := by
  rfl

/-- C5: both TLS configuration entry points unconditionally stamp every input
builder with the bounded connect timeout (10 s) and request timeout (30 s),
whether or not a custom CA bundle is configured. -/
theorem claim_C5 {Cert : Type} (fromPem : List Char → Option Cert)
    (validate : List Cert → Bool) (env fs : String → Option String)
    (s : TlsState Cert) (b : ClientBuilder Cert) :
    ((configure_tls_blocking fromPem validate env fs s b).1.connectTimeout = some 10 ∧
     (configure_tls_blocking fromPem validate env fs s b).1.requestTimeout = some 30) ∧
    ((configure_tls_async fromPem validate env fs s b).1.connectTimeout = some 10 ∧
     (configure_tls_async fromPem validate env fs s b).1.requestTimeout = some 30) := by
  rcases h : load_ca_certificates fromPem validate env fs s with ⟨v, s1⟩
  cases v <;>
    simp [configure_tls_blocking, configure_tls_async, h,
      DEFAULT_CONNECT_TIMEOUT, DEFAULT_REQUEST_TIMEOUT]

/-- C7 (amended): the transport/trust configuration is *not* an explicitly
constructed startup collaborator — it lives in the process-wide
lazily-initialized cache `CA_BUNDLE_CACHE`, which is unset at startup, is
populated by whichever `load_ca_certificates` call comes first, and is
returned unchanged by every call thereafter. -/
theorem claim_C7 {Cert : Type} (fromPem : List Char → Option Cert)
    (validate : List Cert → Bool) (env fs : String → Option String) :
    ((load_ca_certificates fromPem validate env fs initialTlsState).2).cache =
      some (load_ca_certificates fromPem validate env fs initialTlsState).1 ∧
    ∀ (s : TlsState Cert) (w : Option (List Cert)), s.cache = some w →
      load_ca_certificates fromPem validate env fs s = (w, s) := by
  constructor
  · rfl
  · intro s w h
    exact load_ca_certificates_cached fromPem validate env fs s w h

/-- C7 witness: with a concrete already-populated cache holding the bundle
`[2]`, `load_ca_certificates` returns it and leaves the state untouched. -/
theorem claim_C7_witness :
    load_ca_certificates (fun _ : List Char => (none : Option Nat))
        (fun _ => true) (fun _ => none) (fun _ => none)
        ⟨some (some [2])⟩ = (some [2], ⟨some (some [2])⟩) :=
  (claim_C7 (fun _ : List Char => (none : Option Nat)) (fun _ => true)
      (fun _ => none) (fun _ => none)).2 ⟨some (some [2])⟩ (some [2]) rfl

/-- C7 counterexample to the claim as stated: the cache is empty at startup
and the first `load_ca_certificates` call initializes it — the configuration
is held in process-wide lazily-initialized implicit global state, contradicting
"created once at startup ... no process-wide lazily-initialized implicit
global state". -/
theorem claim_C7_counterexample :
    (initialTlsState : TlsState Nat).cache = none ∧
    ((load_ca_certificates (fun _ : List Char => (none : Option Nat))
        (fun _ => true) (fun _ => none) (fun _ => none)
        initialTlsState).2).cache ≠ none := by
  constructor
  · rfl
  · simp [load_ca_certificates, initialTlsState]

/-! Section: `src/config.rs` — user configuration.

`Config` is the persisted preference record.  `serde_yaml` parsing is external
and passed in as `parseYaml`; the on-disk state of the config file is a
`ConfigFileState`.  `save()` only performs disk I/O and does not change the
in-memory value, so it is omitted from the state transitions. -/

/-- Embedding of `struct Config` (src/config.rs lines 13–30). -/
structure Config where
  profile : Option String
  region : Option String
  last_resource : Option String
  recently_used_regions : List String

/-- Embedding of `Config::default()` (the derived `Default`): all fields empty. -/
def Config.default : Config := ⟨none, none, none, []⟩

/-- On-disk states of the config file distinguished by `Config::load`:
missing (`!path.exists()`), unreadable (`fs::read_to_string` fails), or
present with some text. -/
inductive ConfigFileState where
  | absent
  | unreadable
  | contents (s : String)

/-- Embedding of `Config::load` (src/config.rs lines 33–58): every failure
branch falls back to `Config::default()`. -/
def Config.load (parseYaml : String → Option Config) :
    ConfigFileState → Config
  | .absent => Config.default
  | .unreadable => Config.default
  | .contents s =>
    match parseYaml s with
    | some c => c
    | none => Config.default

/-- Embedding of `Config::effective_profile` (src/config.rs lines 132–139):
`AWS_PROFILE`, then the persisted profile, then `"default"`. -/
def Config.effective_profile (env : String → Option String) (c : Config) :
    String :=
  ((env "AWS_PROFILE").or c.profile).getD "default"

/-- Embedding of `Config::effective_region` (src/config.rs lines 141–149):
`AWS_REGION`, then `AWS_DEFAULT_REGION`, then the persisted region, then
`"us-east-1"`. -/
def Config.effective_region (env : String → Option String) (c : Config) :
    String :=
  (((env "AWS_REGION").or (env "AWS_DEFAULT_REGION")).or c.region).getD
    "us-east-1"

/-- Modelled from the spec: the explicit-override layer for the profile.  The
caller that applies an explicit override before consulting
`Config::effective_profile` is not under `src/`; the spec states the priority
"explicit override, then environment variable, then persisted preference, then
built-in default". -/
def effectiveProfileWithOverride (ov : Option String)
    (env : String → Option String) (c : Config) : String :=
  match ov with
  | some p => p
  | none => c.effective_profile env

/-- Modelled from the spec: the explicit-override layer for the region; see
`effectiveProfileWithOverride`. -/
def effectiveRegionWithOverride (ov : Option String)
    (env : String → Option String) (c : Config) : String :=
  match ov with
  | some r => r
  | none => c.effective_region env

/-- C2: the effective profile and region are resolved in priority order —
explicit override, then environment variable (`AWS_PROFILE` for the profile;
`AWS_REGION` then `AWS_DEFAULT_REGION` for the region), then the persisted
preference, then the built-in default (`"default"` / `"us-east-1"`). -/
theorem claim_C2 (ov : Option String) (env : String → Option String)
    (c : Config) :
    (∀ p, ov = some p → effectiveProfileWithOverride ov env c = p) ∧
    (ov = none → ∀ p, env "AWS_PROFILE" = some p →
      effectiveProfileWithOverride ov env c = p) ∧
    (ov = none → env "AWS_PROFILE" = none → ∀ p, c.profile = some p →
      effectiveProfileWithOverride ov env c = p) ∧
    (ov = none → env "AWS_PROFILE" = none → c.profile = none →
      effectiveProfileWithOverride ov env c = "default") ∧
    (∀ r, ov = some r → effectiveRegionWithOverride ov env c = r) ∧
    (ov = none → ∀ r, env "AWS_REGION" = some r →
      effectiveRegionWithOverride ov env c = r) ∧
    (ov = none → env "AWS_REGION" = none → ∀ r,
      env "AWS_DEFAULT_REGION" = some r →
      effectiveRegionWithOverride ov env c = r) ∧
    (ov = none → env "AWS_REGION" = none → env "AWS_DEFAULT_REGION" = none →
      ∀ r, c.region = some r → effectiveRegionWithOverride ov env c = r) ∧
    (ov = none → env "AWS_REGION" = none → env "AWS_DEFAULT_REGION" = none →
      c.region = none → effectiveRegionWithOverride ov env c = "us-east-1") := by
  refine ⟨?_, ?_, ?_, ?_, ?_, ?_, ?_, ?_, ?_⟩
  · intro p hov
    subst hov
    rfl
  · intro hov p hp
    subst hov
    simp [effectiveProfileWithOverride, Config.effective_profile, hp]
  · intro hov he p hp
    subst hov
    simp [effectiveProfileWithOverride, Config.effective_profile, he, hp]
  · intro hov he hc
    subst hov
    simp [effectiveProfileWithOverride, Config.effective_profile, he, hc]
  · intro r hov
    subst hov
    rfl
  · intro hov r hr
    subst hov
    simp [effectiveRegionWithOverride, Config.effective_region, hr]
  · intro hov h1 r hr
    subst hov
    simp [effectiveRegionWithOverride, Config.effective_region, h1, hr]
  · intro hov h1 h2 r hr
    subst hov
    simp [effectiveRegionWithOverride, Config.effective_region, h1, h2, hr]
  · intro hov h1 h2 hc
    subst hov
    simp [effectiveRegionWithOverride, Config.effective_region, h1, h2, hc]

/-- C2 witness: three concrete resolutions — an explicit override wins, and
with nothing set the built-in defaults come out. -/
theorem claim_C2_witness :
    effectiveProfileWithOverride (some "ov") (fun _ => some "envp")
        Config.default = "ov" ∧
    effectiveProfileWithOverride none (fun _ => none) Config.default =
      "default" ∧
    effectiveRegionWithOverride none (fun _ => none) Config.default =
      "us-east-1" :=
  ⟨(claim_C2 (some "ov") (fun _ => some "envp") Config.default).1 "ov" rfl,
   (claim_C2 none (fun _ => none) Config.default).2.2.2.1 rfl rfl rfl,
   (claim_C2 none (fun _ => none) Config.default).2.2.2.2.2.2.2.2
     rfl rfl rfl rfl⟩

/-- C9: `Config::load` is total over on-disk states and falls back to
`Config::default()` when the file is absent, unreadable, or fails to parse. -/
theorem claim_C9 (parseYaml : String → Option Config) :
    Config.load parseYaml .absent = Config.default ∧
    Config.load parseYaml .unreadable = Config.default ∧
    ∀ s : String, parseYaml s = none →
      Config.load parseYaml (.contents s) = Config.default := by
  refine ⟨rfl, rfl, ?_⟩
  intro s h
  simp [Config.load, h]

/-- C9 witness: an unparsable file body resolves to the default config. -/
theorem claim_C9_witness :
    Config.load (fun _ => none) (ConfigFileState.contents "bad yaml") =
      Config.default :=
  (claim_C9 (fun _ => none)).2.2 "bad yaml" rfl

/-- Embedding of `Config::add_recent_region` (src/config.rs lines 110–118):
remove the region if present, push it to the front, keep at most 6. -/
def Config.add_recent_region (c : Config) (region : String) : Config :=
  let kept := c.recently_used_regions.filter (fun r => r != region)
  { c with recently_used_regions := (region :: kept).take 6 }

/-- Embedding of `Config::set_region` (src/config.rs lines 102–108); the
trailing `save()` writes to disk only. -/
def Config.set_region (c : Config) (region : String) : Config :=
  ({ c with region := some region }).add_recent_region region

/-- One mutation of the recently-used-regions list. -/
inductive RegionOp where
  | setRegion (r : String)
  | addRecent (r : String)

/-- The region a `RegionOp` passes to the config. -/
def RegionOp.target : RegionOp → String
  | .setRegion r => r
  | .addRecent r => r

/-- Apply one `RegionOp` to a config. -/
def applyRegionOp (c : Config) : RegionOp → Config
  | .setRegion r => c.set_region r
  | .addRecent r => c.add_recent_region r

/-- Apply a sequence of `RegionOp`s left to right. -/
def applyRegionOps (c : Config) (ops : List RegionOp) : Config :=
  ops.foldl applyRegionOp c

/-- One `add_recent_region` call on a duplicate-free list yields a
duplicate-free list of length at most 6 headed by the new region. -/
theorem add_recent_region_spec (c : Config) (r : String)
    (h : c.recently_used_regions.Nodup) :
    (c.add_recent_region r).recently_used_regions.Nodup ∧
    (c.add_recent_region r).recently_used_regions.length ≤ 6 ∧
    (c.add_recent_region r).recently_used_regions.head? = some r := by
  refine ⟨?_, ?_, ?_⟩
  · show ((r :: c.recently_used_regions.filter (fun x => x != r)).take 6).Nodup
    refine List.Nodup.sublist (List.take_sublist 6 _) ?_
    refine List.nodup_cons.mpr ⟨?_, h.filter _⟩
    simp [List.mem_filter]
  · show ((r :: c.recently_used_regions.filter (fun x => x != r)).take 6).length ≤ 6
    rw [List.length_take]
    exact min_le_left _ _
  · rfl

/-- Applying one `RegionOp` preserves freedom from duplicates. -/
theorem applyRegionOp_nodup (c : Config) (op : RegionOp)
    (h : c.recently_used_regions.Nodup) :
    (applyRegionOp c op).recently_used_regions.Nodup := by
  cases op with
  | setRegion r => exact (add_recent_region_spec _ r h).1
  | addRecent r => exact (add_recent_region_spec _ r h).1

/-- Applying any sequence of `RegionOp`s preserves freedom from duplicates. -/
theorem applyRegionOps_nodup (ops : List RegionOp) :
    ∀ c : Config, c.recently_used_regions.Nodup →
      (applyRegionOps c ops).recently_used_regions.Nodup := by
  induction ops with
  | nil => exact fun c h => h
  | cons op ops ih =>
    intro c h
    exact ih _ (applyRegionOp_nodup c op h)

/-- C8 (amended): after any nonempty sequence of `set_region` /
`add_recent_region` calls starting from a config whose recently-used list is
duplicate-free (as `Config::default()` and every list these calls produce
are), the list has no duplicates, has length at most 6, and is headed by the
most recent region.  (For a starting config whose persisted list already
contains duplicates the no-duplicates part fails, see
`claim_C8_counterexample`.) -/
theorem claim_C8 (c : Config) (h : c.recently_used_regions.Nodup)
    (ops : List RegionOp) (op : RegionOp) :
    (applyRegionOps c (ops ++ [op])).recently_used_regions.Nodup ∧
    (applyRegionOps c (ops ++ [op])).recently_used_regions.length ≤ 6 ∧
    (applyRegionOps c (ops ++ [op])).recently_used_regions.head? =
      some op.target := by
  have hmid : (applyRegionOps c ops).recently_used_regions.Nodup :=
    applyRegionOps_nodup ops c h
  have happ : applyRegionOps c (ops ++ [op]) =
      applyRegionOp (applyRegionOps c ops) op := by
    simp [applyRegionOps, List.foldl_append]
  rw [happ]
  cases op with
  | setRegion r => exact add_recent_region_spec _ r hmid
  | addRecent r => exact add_recent_region_spec _ r hmid

/-- C8 witness: from the default config, one `set_region "eu-west-1"` call
leaves a duplicate-free list of length at most 6 headed by `"eu-west-1"`. -/
theorem claim_C8_witness :
    (applyRegionOps Config.default
        [RegionOp.setRegion "eu-west-1"]).recently_used_regions.Nodup ∧
    (applyRegionOps Config.default
        [RegionOp.setRegion "eu-west-1"]).recently_used_regions.length ≤ 6 ∧
    (applyRegionOps Config.default
        [RegionOp.setRegion "eu-west-1"]).recently_used_regions.head? =
      some "eu-west-1" :=
  claim_C8 Config.default (by simp [Config.default]) []
    (RegionOp.setRegion "eu-west-1")

/-- C8 counterexample to "starting from any Config": a persisted list that
already carries duplicates (as a hand-edited or corrupted config file can)
keeps duplicates after a further `set_region` call — only the duplicates of
the newly set region are removed. -/
theorem claim_C8_counterexample :
    (applyRegionOps ⟨none, none, none, ["a", "a", "b", "b", "b", "c", "d"]⟩
        [RegionOp.setRegion "x"]).recently_used_regions =
      ["x", "a", "a", "b", "b", "b"] ∧
    ¬ (applyRegionOps ⟨none, none, none, ["a", "a", "b", "b", "b", "c", "d"]⟩
        [RegionOp.setRegion "x"]).recently_used_regions.Nodup := by
  constructor
  · rfl
  · decide

/-! Section: `src/aws/profiles.rs` — profile and region discovery.

The contents of `~/.aws/credentials` and `~/.aws/config` are `Option String`
inputs (`none` when the file is absent or unreadable, matching the
`if let Ok(content) = fs::read_to_string(...)` guards).  The `aws` CLI is an
external process; its outcome is an `Except String (List String)` input. -/

/-- Section headers of an ini-style file: each trimmed line of the form
`[name]` contributes `name` (src/aws/profiles.rs lines 49–55, 62–65; the byte
slice `line[1..line.len()-1]` becomes drop/dropRight on characters). -/
def sectionNames (content : String) : List String :=
  (content.splitOn "\n").filterMap (fun line =>
    let l := line.trim
    if l.startsWith "[" && l.endsWith "]" then
      some ((l.drop 1).dropRight 1)
    else none)

/-- Profile names contributed by the credentials file: the section names. -/
def credentialProfileNames (content : String) : List String :=
  sectionNames content

/-- Profile names contributed by the config file: section names, with the
`"profile "` marker (8 characters) stripped when present
(src/aws/profiles.rs lines 66–71). -/
def configProfileNames (content : String) : List String :=
  (sectionNames content).map (fun sec =>
    if sec.startsWith "profile " then sec.drop 8 else sec)

/-- Embedding of `list_profiles` (src/aws/profiles.rs lines 40–82): a
`HashSet` seeded with `"default"`, extended with the names found in each file,
then collected and sorted.  The set-then-sort is modelled as
dedup-then-mergeSort (same resulting list). -/
def list_profiles (creds config : Option String) : List String :=
  let names := "default" ::
    ((creds.map credentialProfileNames).getD [] ++
      (config.map configProfileNames).getD [])
  names.dedup.mergeSort (fun a b => decide (a ≤ b))

/-- C3: for every state of the credentials and config files (absent,
unreadable, or any contents), `list_profiles` returns a sorted, duplicate-free
list that contains the `"default"` profile. -/
theorem claim_C3 (creds config : Option String) :
    "default" ∈ list_profiles creds config ∧
    (list_profiles creds config).Nodup ∧
    List.Sorted (· ≤ ·) (list_profiles creds config) := by
  refine ⟨?_, ?_, ?_⟩
  · rw [list_profiles]
    rw [List.mem_mergeSort, List.mem_dedup]
    exact List.mem_cons_self _ _
  · rw [list_profiles]
    exact ((List.mergeSort_perm _ _).nodup_iff).mpr (List.nodup_dedup _)
  · rw [list_profiles]
    refine List.Pairwise.imp ?_ (List.sorted_mergeSort ?_ ?_ _)
    · exact fun h => of_decide_eq_true h
    · intro a b c hab hbc
      exact decide_eq_true
        (le_trans (of_decide_eq_true hab) (of_decide_eq_true hbc))
    · intro a b
      rcases le_total a b with h | h <;> simp [h]

/-- The static fallback region list `FALLBACK_REGIONS`
(src/aws/profiles.rs lines 9–37). -/
def FALLBACK_REGIONS : List String :=
  ["us-east-1", "us-east-2", "us-west-1", "us-west-2", "af-south-1",
   "ap-east-1", "ap-south-1", "ap-south-2", "ap-southeast-1",
   "ap-southeast-2", "ap-southeast-3", "ap-southeast-4", "ap-northeast-1",
   "ap-northeast-2", "ap-northeast-3", "ca-central-1", "eu-central-1",
   "eu-central-2", "eu-west-1", "eu-west-2", "eu-west-3", "eu-south-1",
   "eu-south-2", "eu-north-1", "me-south-1", "me-central-1", "sa-east-1"]

/-- Embedding of `fallback_regions` (src/aws/profiles.rs lines 121–123). -/
def fallback_regions : List String := FALLBACK_REGIONS

/-- Embedding of `list_regions` (src/aws/profiles.rs lines 85–99): use the
regions fetched through the AWS CLI when that succeeded with a nonempty list,
otherwise the static fallback. -/
def list_regions (fetched : Except String (List String)) : List String :=
  match fetched with
  | .ok regions => if regions.isEmpty then fallback_regions else regions
  | .error _ => fallback_regions

/-- C10: `list_regions` never returns an empty list; whenever the CLI fetch
fails or yields an empty list, the static 27-entry fallback list is returned
instead of an error or an empty result. -/
theorem claim_C10 (fetched : Except String (List String)) :
    list_regions fetched ≠ [] ∧
    (∀ e, list_regions (.error e) = fallback_regions) ∧
    list_regions (.ok []) = fallback_regions ∧
    fallback_regions.length = 27 := by
  refine ⟨?_, fun e => rfl, rfl, by decide⟩
  match fetched with
  | .ok regions =>
    by_cases h : regions.isEmpty
    · simp [list_regions, h, fallback_regions, FALLBACK_REGIONS]
    · have hne : regions ≠ [] := fun hn => h (by simp [hn])
      simp [list_regions, h, hne]
  | .error e =>
    simp [list_regions, fallback_regions, FALLBACK_REGIONS]

end Taws
